import Mathlib

/-!
Verification of the flashforge-finder-api server (server.js).

The development shallowly embeds the core of the program:

* the protocol command table (source lines 22-36),
* the snapshot assembler fetchSnapshot (lines 86-200), modelled at the
  level of per-step transaction outcomes: each step's transaction either
  fails with a message or yields the data the step's regular expressions
  extract from the raw reply (the regex layer is a pure function from the
  reply text, so its output is the natural input boundary of the model),
* the progress-percentage computation of the progress route (lines 350-364)
  and of the assembler (lines 151-169); JavaScript float arithmetic
  Math.floor((printed / total) * 100) is modelled as exact natural floor
  division printed * 100 / total,
* the WebSocket subscription hub (lines 202-261 and 479-533): the
  registry is a JavaScript Map from printer IP to an entry holding a Set of
  clients, the polling interval and the active timer; it is modelled as an
  association list with unique keys, and timer creation/cancellation is
  recorded as an explicit action trace,
* the polling tick callback (lines 212-227 and 233-248),
* the one-shot TCP transaction sendAndReceive (lines 59-83), modelled as an
  event-sequence semantics over the socket handlers the code registers,
* the LED control route (lines 403-425).

JavaScript object fields that may be absent, null or a string are modelled
by the type JsVal; JavaScript objects whose keys are inserted dynamically
(info, headLocation, status sections) are association lists in insertion
order.
-/

namespace FlashforgeApi

/-! Protocol command table, source lines 22-36. -/

def CONTROL : String := "~M601 S1\r\n"

def INFO : String := "~M115\r\n"

def HEAD_POSITION : String := "~M114\r\n"

def TEMP : String := "~M105\r\n"

def PROGRESS : String := "~M27\r\n"

def STATUS : String := "~M119\r\n"

def LED_ON : String := "~M146 r255 g255 b255\r\n"

def LED_OFF : String := "~M146 r0 g0 b0\r\n"

def PAUSE : String := "~M25\r\n"

def RESUME : String := "~M24\r\n"

def CANCEL : String := "~M26\r\n"

def HOME : String := "~G28\r\n"

/-- A JavaScript object field value: absent key, explicit null, or a string. -/
inductive JsVal where
  | undef
  | null
  | str (s : String)
  deriving Repr, DecidableEq

/-- What the M115 regexes extract from an info reply (lines 99-117):
each of the five mapped fields, the Mac address, and the build volume. -/
structure InfoReply where
  machineType : Option String
  machineName : Option String
  firmware : Option String
  sn : Option String
  toolCount : Option String
  mac : Option String
  vol : Option (String × String × String)
  deriving Repr, DecidableEq

/-- What the coordinate regexes extract from an M114 reply (lines 125-128). -/
structure HeadReply where
  x : Option String
  y : Option String
  z : Option String
  deriving Repr, DecidableEq

/-- What the T0/T1/B regexes extract from an M105 reply (lines 136-138):
each match yields a (current, target) pair of capture groups. -/
structure TempReply where
  t0 : Option (String × String)
  t1 : Option (String × String)
  bed : Option (String × String)
  deriving Repr, DecidableEq

/-- What the byte and layer regexes extract from an M27 reply (lines 154-155):
the capture groups are digit strings, taken here after parseInt. -/
structure ProgReply where
  bytes : Option (Nat × Nat)
  layers : Option (Nat × Nat)
  deriving Repr, DecidableEq

/-- What the status regexes extract from an M119 reply (lines 177-186). -/
structure StatusReply where
  status : Option String
  machineStatus : Option String
  moveMode : Option String
  endstop : Option String
  led : Option String
  currentFile : Option String
  statusFlags : Option String
  deriving Repr, DecidableEq

/-- One conditional key insertion: in the source, if (match) obj[key] = match[1]. -/
def optField (key : String) : Option String → List (String × String)
  | some v => [(key, v)]
  | none => []

/-- Info section built by lines 99-117, keys in insertion order. -/
def parseInfo (r : InfoReply) : List (String × String) :=
  optField "Type" r.machineType ++ optField "Name" r.machineName ++
  optField "Firmware" r.firmware ++ optField "SN" r.sn ++
  optField "Tool Count" r.toolCount ++ optField "Mac Address" r.mac ++
  (match r.vol with
   | some v => [("BuildVolumeX", v.1), ("BuildVolumeY", v.2.1), ("BuildVolumeZ", v.2.2)]
   | none => [])

/-- Head-location section built by lines 125-128. -/
def parseHead (r : HeadReply) : List (String × String) :=
  optField "X" r.x ++ optField "Y" r.y ++ optField "Z" r.z

/-- Status section built by lines 177-186. -/
def parseStatus (r : StatusReply) : List (String × String) :=
  optField "Status" r.status ++ optField "MachineStatus" r.machineStatus ++
  optField "MoveMode" r.moveMode ++ optField "Endstop" r.endstop ++
  optField "LED" r.led ++ optField "CurrentFile" r.currentFile ++
  optField "StatusFlags" r.statusFlags

/-- The temperatures object, always carrying the six possible keys as JsVal
(absent / null / string), matching lines 133 and 139-146. -/
structure Temperatures where
  Temperature : JsVal
  TargetTemperature : JsVal
  T1Temperature : JsVal
  T1TargetTemperature : JsVal
  BedTemperature : JsVal
  BedTargetTemperature : JsVal
  deriving Repr, DecidableEq

/-- Initial temperatures object of line 133: only the two tool0 keys exist,
both null; the four other keys are absent. -/
def initTemperatures : Temperatures :=
  { Temperature := JsVal.null, TargetTemperature := JsVal.null,
    T1Temperature := JsVal.undef, T1TargetTemperature := JsVal.undef,
    BedTemperature := JsVal.undef, BedTargetTemperature := JsVal.undef }

/-- First capture group of an optional match, null when absent (m ? m[1] : null). -/
def fstVal : Option (String × String) → JsVal
  | some p => JsVal.str p.1
  | none => JsVal.null

/-- Second capture group of an optional match, null when absent (m ? m[2] : null). -/
def sndVal : Option (String × String) → JsVal
  | some p => JsVal.str p.2
  | none => JsVal.null

/-- Temperatures object built on a successful M105 step, lines 139-146. -/
def parseTemperatures (r : TempReply) : Temperatures :=
  { Temperature := fstVal r.t0, TargetTemperature := sndVal r.t0,
    T1Temperature := fstVal r.t1, T1TargetTemperature := sndVal r.t1,
    BedTemperature := fstVal r.bed, BedTargetTemperature := sndVal r.bed }

/-- The progress section shape (lines 151 and 365-371): byte counters with a
percentage, and optional layer counters. -/
structure Progress where
  BytesPrinted : Nat
  BytesTotal : Nat
  PercentageCompleted : Nat
  LayerCurrent : Option Nat
  LayerTotal : Option Nat
  deriving Repr, DecidableEq

/-- Initial progress object of line 151 (route: the zero-initialised locals of
line 352). -/
def initProgress : Progress :=
  { BytesPrinted := 0, BytesTotal := 0, PercentageCompleted := 0,
    LayerCurrent := none, LayerTotal := none }

/-- Progress section of the assembler, lines 151-169. The layer branch tests
progress.PercentageCompleted === 0 && progress.LayerTotal, JavaScript
truthiness of LayerTotal being LayerTotal different from 0. -/
def snapshotProgress (r : ProgReply) : Progress :=
  let p1 : Progress :=
    match r.bytes with
    | some pt =>
        { BytesPrinted := pt.1, BytesTotal := pt.2,
          PercentageCompleted := if pt.2 = 0 then 0 else pt.1 * 100 / pt.2,
          LayerCurrent := none, LayerTotal := none }
    | none => initProgress
  match r.layers with
  | some ct =>
      let p2 : Progress := { p1 with LayerCurrent := some ct.1, LayerTotal := some ct.2 }
      if p2.PercentageCompleted = 0 ∧ ct.2 ≠ 0 then
        { p2 with PercentageCompleted := ct.1 * 100 / ct.2 }
      else p2
  | none => p1

/-- Progress computation of the /:ip/progress route, lines 352-364. The layer
branch tests !percentage && layerTotal: percentage falsy means percentage = 0,
layerTotal truthy means layerTotal different from 0. -/
def routeProgress (bytes : Option (Nat × Nat)) (layers : Option (Nat × Nat)) : Progress :=
  let s1 : Nat × Nat × Nat :=
    match bytes with
    | some pt => (pt.1, pt.2, if pt.2 = 0 then 0 else pt.1 * 100 / pt.2)
    | none => (0, 0, 0)
  match layers with
  | some ct =>
      { BytesPrinted := s1.1, BytesTotal := s1.2.1,
        PercentageCompleted :=
          if s1.2.2 = 0 ∧ ct.2 ≠ 0 then ct.1 * 100 / ct.2 else s1.2.2,
        LayerCurrent := some ct.1, LayerTotal := some ct.2 }
  | none =>
      { BytesPrinted := s1.1, BytesTotal := s1.2.1, PercentageCompleted := s1.2.2,
        LayerCurrent := none, LayerTotal := none }

/-- One printer device as the assembler sees it: for each step, either the
data its regexes extract from the reply, or the failure message of the
rejected transaction. -/
structure Device where
  control : Except String Unit
  info : Except String InfoReply
  head : Except String HeadReply
  temp : Except String TempReply
  progress : Except String ProgReply
  status : Except String StatusReply

/-- The assembled snapshot, lines 191-199. -/
structure Snapshot where
  info : List (String × String)
  headLocation : List (String × String)
  temperatures : Temperatures
  progress : Progress
  status : List (String × String)
  errors : List (String × String)
  timestamp : String
  deriving Repr, DecidableEq

/-- The snapshot assembler fetchSnapshot, lines 86-200, with the list of
commands sent as second component. Each step is one try/catch block: the
command is always sent; on failure one (step, message) record is pushed to
errors and the section keeps its default value; the next step runs
regardless. The timestamp new Date().toISOString() is the parameter now. -/
def fetchSnapshot (d : Device) (now : String) : Snapshot × List String :=
  let sent1 : List String := [] ++ [CONTROL]
  let errs1 : List (String × String) :=
    match d.control with
    | .ok _ => []
    | .error e => [] ++ [("CONTROL", e)]
  let sent2 := sent1 ++ [INFO]
  let infoSec : List (String × String) :=
    match d.info with
    | .ok r => parseInfo r
    | .error _ => []
  let errs2 :=
    match d.info with
    | .ok _ => errs1
    | .error e => errs1 ++ [("INFO", e)]
  let sent3 := sent2 ++ [HEAD_POSITION]
  let headSec : List (String × String) :=
    match d.head with
    | .ok r => parseHead r
    | .error _ => []
  let errs3 :=
    match d.head with
    | .ok _ => errs2
    | .error e => errs2 ++ [("HEAD_POSITION", e)]
  let sent4 := sent3 ++ [TEMP]
  let tempSec : Temperatures :=
    match d.temp with
    | .ok r => parseTemperatures r
    | .error _ => initTemperatures
  let errs4 :=
    match d.temp with
    | .ok _ => errs3
    | .error e => errs3 ++ [("TEMP", e)]
  let sent5 := sent4 ++ [PROGRESS]
  let progSec : Progress :=
    match d.progress with
    | .ok r => snapshotProgress r
    | .error _ => initProgress
  let errs5 :=
    match d.progress with
    | .ok _ => errs4
    | .error e => errs4 ++ [("PROGRESS", e)]
  let sent6 := sent5 ++ [STATUS]
  let statusSec : List (String × String) :=
    match d.status with
    | .ok r => parseStatus r
    | .error _ => []
  let errs6 :=
    match d.status with
    | .ok _ => errs5
    | .error e => errs5 ++ [("STATUS", e)]
  ({ info := infoSec, headLocation := headSec, temperatures := tempSec,
     progress := progSec, status := statusSec, errors := errs6, timestamp := now },
   sent6)

/-- Error records contributed by one step: none on success, one on failure. -/
def stepErr (name : String) : Except String α → List (String × String)
  | .ok _ => []
  | .error e => [(name, e)]

/-- Closed form of the assembler: section by section, the error list is the
concatenation of the per-step records in step order, and the command trace is
the fixed six-command sequence. -/
theorem fetchSnapshot_spec (d : Device) (now : String) :
    fetchSnapshot d now =
      ({ info := match d.info with | .ok r => parseInfo r | .error _ => []
       , headLocation := match d.head with | .ok r => parseHead r | .error _ => []
       , temperatures := match d.temp with | .ok r => parseTemperatures r | .error _ => initTemperatures
       , progress := match d.progress with | .ok r => snapshotProgress r | .error _ => initProgress
       , status := match d.status with | .ok r => parseStatus r | .error _ => []
       , errors := stepErr "CONTROL" d.control ++ stepErr "INFO" d.info ++
           stepErr "HEAD_POSITION" d.head ++ stepErr "TEMP" d.temp ++
           stepErr "PROGRESS" d.progress ++ stepErr "STATUS" d.status
       , timestamp := now },
       [CONTROL, INFO, HEAD_POSITION, TEMP, PROGRESS, STATUS]) := by
  obtain ⟨c, i, hd, t, p, s⟩ := d
  cases c <;> cases i <;> cases hd <;> cases t <;> cases p <;> cases s <;> rfl

/-- Byte-based percentage as the code computes it in the bytes branch
(lines 353-357): 0 when no bytes match or the total is zero. -/
def bytePct : Option (Nat × Nat) → Nat
  | some pt => if pt.2 = 0 then 0 else pt.1 * 100 / pt.2
  | none => 0

/-- Layer-based percentage: 0 when no layers match or the layer total is zero. -/
def layerPct : Option (Nat × Nat) → Nat
  | some ct => if ct.2 = 0 then 0 else ct.1 * 100 / ct.2
  | none => 0

/-- C2 counterexample: with a byte-progress match printed=0, total=200 (total
non-zero, so the claim demands the byte-based value floor(0/200*100) = 0) and a
layer match 3/12, the code returns 25: the layer fallback fires whenever the
byte-based percentage is zero, not only when the byte total is zero, so layer
data does override a byte result computed from a non-zero total. -/
theorem progress_layer_overrides_nonzero_byte_total :
    (routeProgress (some (0, 200)) (some (3, 12))).PercentageCompleted = 25 ∧
    0 * 100 / 200 = 0 ∧ (25 : Nat) ≠ 0 ∧
    (snapshotProgress ⟨some (0, 200), some (3, 12)⟩).PercentageCompleted = 25 := by
  decide

/-- C2 amended: the byte-based value prevails only when it is non-zero; whenever
the byte-based percentage is zero (no byte match, zero byte total, or a
non-zero total whose floored quotient is zero), the layer fallback applies
(itself 0 when no layer match or zero layer total). The assembler (lines
151-169) computes the same percentage as the route (lines 352-364), and the
three concrete examples of the spec hold. -/
theorem progress_percentage_policy (bytes layers : Option (Nat × Nat)) :
    (routeProgress bytes layers).PercentageCompleted =
      (if bytePct bytes = 0 then layerPct layers else bytePct bytes) ∧
    (snapshotProgress ⟨bytes, layers⟩).PercentageCompleted =
      (routeProgress bytes layers).PercentageCompleted ∧
    (routeProgress (some (50, 200)) none).PercentageCompleted = 25 ∧
    (routeProgress (some (0, 0)) (some (3, 12))).PercentageCompleted = 25 ∧
    (routeProgress (some (0, 0)) none).PercentageCompleted = 0 := by
  refine ⟨?_, ?_, by decide, by decide, by decide⟩ <;>
    rcases bytes with _ | ⟨p, t⟩ <;> rcases layers with _ | ⟨c, lt⟩ <;>
      simp [routeProgress, snapshotProgress, bytePct, layerPct, initProgress] <;>
        split_ifs <;> simp_all

/-- A concrete device whose temperature transaction fails and whose other five
steps succeed (with replies in which no pattern matches). -/
def tempFailDevice : Device :=
  { control := .ok ()
  , info := .ok ⟨none, none, none, none, none, none, none⟩
  , head := .ok ⟨none, none, none⟩
  , temp := .error "Connection timeout"
  , progress := .ok ⟨none, none⟩
  , status := .ok ⟨none, none, none, none, none, none, none⟩ }

/-- C3 counterexample: when the temperature step fails, the temperatures
section is the initial object of line 133, which carries only the two tool0
keys (both null); the tool1 and bed keys are absent, not set to an explicit
unknown value, so the section does not contain all six fields. -/
theorem temp_failure_fields_absent :
    (fetchSnapshot tempFailDevice "2024-01-01T00:00:00.000Z").1.temperatures.T1Temperature
      = JsVal.undef ∧
    JsVal.undef ≠ JsVal.null ∧
    (fetchSnapshot tempFailDevice "2024-01-01T00:00:00.000Z").1.temperatures ≠
      { Temperature := JsVal.null, TargetTemperature := JsVal.null,
        T1Temperature := JsVal.null, T1TargetTemperature := JsVal.null,
        BedTemperature := JsVal.null, BedTargetTemperature := JsVal.null } := by
  decide

/-- C3 amended: when the temperature step fails, the temperatures section is
the initial object of line 133 — the two tool0 fields present and null, the
tool1 and bed fields absent; the error list contains exactly one record whose
step is TEMP, carrying the failure message; and every other section, the
timestamp, and the non-TEMP error records are identical to what the same
device would produce had the temperature step succeeded (with any reply). -/
theorem temp_failure_shape (d : Device) (now e : String)
    (h : d.temp = Except.error e) :
    (fetchSnapshot d now).1.temperatures = initTemperatures ∧
    ((fetchSnapshot d now).1.errors.filter (fun p => p.1 == "TEMP")) = [("TEMP", e)] ∧
    ∀ r : TempReply,
      (fetchSnapshot { d with temp := .ok r } now).1.info = (fetchSnapshot d now).1.info ∧
      (fetchSnapshot { d with temp := .ok r } now).1.headLocation
        = (fetchSnapshot d now).1.headLocation ∧
      (fetchSnapshot { d with temp := .ok r } now).1.progress
        = (fetchSnapshot d now).1.progress ∧
      (fetchSnapshot { d with temp := .ok r } now).1.status
        = (fetchSnapshot d now).1.status ∧
      (fetchSnapshot { d with temp := .ok r } now).1.timestamp
        = (fetchSnapshot d now).1.timestamp ∧
      ((fetchSnapshot { d with temp := .ok r } now).1.errors.filter (fun p => p.1 != "TEMP"))
        = ((fetchSnapshot d now).1.errors.filter (fun p => p.1 != "TEMP")) := by
  refine ⟨?_, ?_, ?_⟩
  · rw [fetchSnapshot_spec]
    simp [h]
  · rw [fetchSnapshot_spec]
    simp only [h]
    obtain ⟨c, i, hd, t, p, s⟩ := d
    cases c <;> cases i <;> cases hd <;> cases p <;> cases s <;>
      simp [stepErr, List.filter]
  · intro r
    rw [fetchSnapshot_spec, fetchSnapshot_spec]
    refine ⟨rfl, rfl, rfl, rfl, rfl, ?_⟩
    simp only [h]
    obtain ⟨c, i, hd, t, p, s⟩ := d
    cases c <;> cases i <;> cases hd <;> cases p <;> cases s <;>
      simp [stepErr, List.filter]

/-- C3 witness: the amended theorem applied to the concrete failing device. -/
theorem temp_failure_shape_witness :
    (fetchSnapshot tempFailDevice "t").1.temperatures = initTemperatures ∧
    ((fetchSnapshot tempFailDevice "t").1.errors.filter (fun p => p.1 == "TEMP"))
      = [("TEMP", "Connection timeout")] := by
  have h := temp_failure_shape tempFailDevice "t" "Connection timeout" rfl
  exact ⟨h.1, h.2.1⟩

/-- C4: the assembler is total and fixed: for every device (every combination
of per-step successes and failures) it sends exactly the six commands
unlock-control, info, head-position, temperature, progress, status, in that
order, once each with no retries; each failing step appends exactly one
(step, reason) record to the error list, in step order, and failures never
prevent later steps (the command trace is the same for every device); the
returned snapshot always carries its timestamp. -/
theorem fetchSnapshot_total_ordered (d : Device) (now : String) :
    (fetchSnapshot d now).2 = [CONTROL, INFO, HEAD_POSITION, TEMP, PROGRESS, STATUS] ∧
    (fetchSnapshot d now).1.timestamp = now ∧
    (fetchSnapshot d now).1.errors =
      stepErr "CONTROL" d.control ++ stepErr "INFO" d.info ++
      stepErr "HEAD_POSITION" d.head ++ stepErr "TEMP" d.temp ++
      stepErr "PROGRESS" d.progress ++ stepErr "STATUS" d.status ∧
    (∀ d2 : Device, (fetchSnapshot d2 now).2 = (fetchSnapshot d now).2) := by
  refine ⟨?_, ?_, ?_, ?_⟩
  · rw [fetchSnapshot_spec]
  · rw [fetchSnapshot_spec]
  · rw [fetchSnapshot_spec]
  · intro d2
    rw [fetchSnapshot_spec, fetchSnapshot_spec]

/-- Clamp of the LED route, line 415: Math.min(255, Math.max(0, x)). -/
def clampByte (x : Int) : Int := min 255 (max 0 x)

/-- The parsed body of a POST /:ip/led request, line 406: the state field and
the r, g, b fields; some v models a field that is present and of type number
(the typeof checks of line 413). -/
structure LedBody where
  state : Option String
  r : Option Int
  g : Option Int
  b : Option Int

/-- Command selection of the LED route, lines 410-418. -/
def ledCommand (body : LedBody) : String :=
  if body.state = some "off" then LED_OFF
  else
    match body.r, body.g, body.b with
    | some r, some g, some b =>
        "~M146 r" ++ toString (clampByte r) ++ " g" ++ toString (clampByte g) ++
          " b" ++ toString (clampByte b) ++ "\r\n"
    | _, _, _ => LED_ON

/-- C10: if state is the string off, the fixed LED-off command is sent (even
when r, g, b are present); otherwise, when the body carries numeric r, g and b,
the custom LED command is sent with each component clamped into 0..255 (below
0 becomes 0, above 255 becomes 255, in-range values pass through); in all
other cases the fixed LED-on command is sent. -/
theorem ledCommand_policy :
    (∀ body : LedBody, body.state = some "off" → ledCommand body = LED_OFF) ∧
    (∀ (body : LedBody) (r g b : Int), body.state ≠ some "off" →
      body.r = some r → body.g = some g → body.b = some b →
      ledCommand body =
        "~M146 r" ++ toString (clampByte r) ++ " g" ++ toString (clampByte g) ++
          " b" ++ toString (clampByte b) ++ "\r\n") ∧
    (∀ body : LedBody, body.state ≠ some "off" →
      (body.r = none ∨ body.g = none ∨ body.b = none) → ledCommand body = LED_ON) ∧
    (∀ x : Int, 0 ≤ clampByte x ∧ clampByte x ≤ 255 ∧
      (x < 0 → clampByte x = 0) ∧ (255 < x → clampByte x = 255) ∧
      (0 ≤ x → x ≤ 255 → clampByte x = x)) := by
  refine ⟨?_, ?_, ?_, ?_⟩
  · intro body hs
    simp [ledCommand, hs]
  · intro body r g b hs hr hg hb
    simp [ledCommand, hs, hr, hg, hb]
  · intro body hs habs
    obtain ⟨st, br, bg, bb⟩ := body
    rcases br with _ | rv <;> rcases bg with _ | gv <;> rcases bb with _ | bv <;>
      simp_all [ledCommand]
  · intro x
    unfold clampByte
    omega

/-- C10 witness: the policy applied to a concrete body with out-of-range
components: 300 clamps to 255, -5 clamps to 0, 128 passes through. -/
theorem ledCommand_policy_witness :
    ledCommand ⟨some "on", some 300, some (-5), some 128⟩ =
      "~M146 r" ++ toString (clampByte 300) ++ " g" ++ toString (clampByte (-5)) ++
        " b" ++ toString (clampByte 128) ++ "\r\n" ∧
    clampByte 300 = 255 ∧ clampByte (-5) = 0 ∧ clampByte 128 = 128 := by
  refine ⟨ledCommand_policy.2.1 ⟨some "on", some 300, some (-5), some 128⟩
    300 (-5) 128 (by decide) rfl rfl rfl, by decide, by decide, by decide⟩

/-! The WebSocket subscription hub, lines 202-261 and 479-533.

The registry const subscriptions = new Map() maps a printer IP to an entry
holding a Set of client sockets, the polling interval and the active timer.
A JavaScript Map has unique keys and preserves insertion order; it is
modelled as an association list whose keys are kept without duplicates
(KeysOk). Client sockets are opaque handles, modelled as naturals; a Set
is a duplicate-free list in insertion order. Timers are identified by the
counter nextTimer; calls to setInterval and clearInterval are recorded in a
HubAction trace so that timer start/cancellation is observable. -/

/-- An opaque WebSocket client handle. -/
abbrev Sub := Nat

/-- One registry entry, line 203: clients Set, polling interval, timer. -/
structure Entry where
  clients : List Sub
  intervalMs : Nat
  timer : Nat
  deriving Repr, DecidableEq

/-- Observable timer operations: clearInterval and setInterval calls. -/
inductive HubAction where
  | clearTimer (id : Nat)
  | startTimer (id : Nat) (intervalMs : Nat)
  deriving Repr, DecidableEq

/-- The hub state: the subscriptions Map and the next fresh timer id. -/
structure Hub where
  subs : List (String × Entry)
  nextTimer : Nat
  deriving Repr, DecidableEq

/-- Map.get: value of the first (unique) pair with the given key. -/
def getEntry (l : List (String × Entry)) (ip : String) : Option Entry :=
  match l with
  | [] => none
  | p :: rest => if p.1 = ip then some p.2 else getEntry rest ip

/-- Map.set: replace the pair with the given key in place, or append. -/
def setEntry (l : List (String × Entry)) (ip : String) (e : Entry) :
    List (String × Entry) :=
  match l with
  | [] => [(ip, e)]
  | p :: rest => if p.1 = ip then (ip, e) :: rest else p :: setEntry rest ip e

/-- Map.delete: remove the pair with the given key. -/
def delEntry (l : List (String × Entry)) (ip : String) : List (String × Entry) :=
  match l with
  | [] => []
  | p :: rest => if p.1 = ip then rest else p :: delEntry rest ip

/-- The keys of the registry. -/
def keys (l : List (String × Entry)) : List String := l.map Prod.fst

/-- Set.add: append the handle unless it is already a member. -/
def addClient (c : List Sub) (ws : Sub) : List Sub :=
  if ws ∈ c then c else c ++ [ws]

/-- Set.delete: remove the handle (on duplicate-free lists this is exactly
the removal of the one occurrence). -/
def removeClient (c : List Sub) (ws : Sub) : List Sub :=
  match c with
  | [] => []
  | x :: rest => if x = ws then removeClient rest ws else x :: removeClient rest ws

/-- ensurePolling, lines 205-252. Returns the new hub, the entry the caller
receives (the JavaScript function returns the entry object), and the timer
actions performed. If an entry exists and the requested interval is strictly
smaller, the running timer is cleared and a new one started at the smaller
interval (lines 209-228); otherwise the entry is returned unchanged. If no
entry exists, a fresh entry with an empty client set and a new timer is
inserted (lines 232-251). -/
def ensurePolling (h : Hub) (ip : String) (intervalMs : Nat) :
    Hub × Entry × List HubAction :=
  match getEntry h.subs ip with
  | some existing =>
      if intervalMs < existing.intervalMs then
        let retuned : Entry :=
          { existing with intervalMs := intervalMs, timer := h.nextTimer }
        ({ subs := setEntry h.subs ip retuned, nextTimer := h.nextTimer + 1 },
         retuned,
         [HubAction.clearTimer existing.timer,
          HubAction.startTimer h.nextTimer intervalMs])
      else (h, existing, [])
  | none =>
      let e : Entry := { clients := [], intervalMs := intervalMs, timer := h.nextTimer }
      ({ subs := setEntry h.subs ip e, nextTimer := h.nextTimer + 1 },
       e,
       [HubAction.startTimer h.nextTimer intervalMs])

/-- cleanupSubscription, lines 254-261: if the entry exists and its client
set is empty, clear its timer and delete the entry; otherwise do nothing. -/
def cleanupSubscription (h : Hub) (ip : String) : Hub × List HubAction :=
  match getEntry h.subs ip with
  | none => (h, [])
  | some e =>
      if e.clients = [] then
        ({ h with subs := delEntry h.subs ip }, [HubAction.clearTimer e.timer])
      else (h, [])

/-- The subscribe message handler, lines 502-506: ensurePolling followed by
entry.clients.add(ws) on the returned (shared) entry object. -/
def subscribe (h : Hub) (ip : String) (intervalMs : Nat) (ws : Sub) :
    Hub × List HubAction :=
  let r := ensurePolling h ip intervalMs
  ({ r.1 with
      subs := setEntry r.1.subs ip { r.2.1 with clients := addClient r.2.1.clients ws } },
   r.2.2)

/-- The unsubscribe message handler, lines 507-513: if an entry exists,
entry.clients.delete(ws) then cleanupSubscription(ip); otherwise nothing. -/
def unsubscribe (h : Hub) (ip : String) (ws : Sub) : Hub × List HubAction :=
  match getEntry h.subs ip with
  | none => (h, [])
  | some e =>
      let h1 : Hub :=
        { h with subs := setEntry h.subs ip { e with clients := removeClient e.clients ws } }
      cleanupSubscription h1 ip

/-- The close handler loop body, lines 525-532: for each registry key, the
body entry.clients.delete(ws); cleanupSubscription(ip) coincides with the
unsubscribe handler at that key (when the key has no entry both are no-ops,
which cannot arise mid-loop but keeps the match total). -/
def disconnectGo (ws : Sub) (todo : List String) (h : Hub) : Hub × List HubAction :=
  match todo with
  | [] => (h, [])
  | ip :: rest =>
      let r1 := unsubscribe h ip ws
      let r2 := disconnectGo ws rest r1.1
      (r2.1, r1.2 ++ r2.2)

/-- The full close handler, lines 525-532: iterate over all registry keys. -/
def disconnect (h : Hub) (ws : Sub) : Hub × List HubAction :=
  disconnectGo ws (keys h.subs) h

/-- Uniqueness of Map keys, guaranteed by the JavaScript Map. -/
def KeysOk (h : Hub) : Prop := (keys h.subs).Nodup

/-- The registry invariant the spec states: an entry exists only while its
subscriber set is non-empty (together with key uniqueness). -/
def Inv (h : Hub) : Prop :=
  KeysOk h ∧ ∀ ip e, getEntry h.subs ip = some e → e.clients ≠ []

theorem getEntry_setEntry_self (l : List (String × Entry)) (ip : String) (e : Entry) :
    getEntry (setEntry l ip e) ip = some e := by
  induction l with
  | nil => simp [setEntry, getEntry]
  | cons p rest ih =>
      by_cases hp : p.1 = ip
      · simp [setEntry, getEntry, hp]
      · simp [setEntry, getEntry, hp, ih]

theorem getEntry_setEntry_ne (l : List (String × Entry)) (ip ip2 : String) (e : Entry)
    (h : ip2 ≠ ip) : getEntry (setEntry l ip e) ip2 = getEntry l ip2 := by
  induction l with
  | nil => simp [setEntry, getEntry, Ne.symm h]
  | cons p rest ih =>
      by_cases hp : p.1 = ip
      · subst hp
        simp [setEntry, getEntry, Ne.symm h]
      · by_cases hp2 : p.1 = ip2 <;> simp [setEntry, getEntry, hp, hp2, h, ih]

theorem getEntry_delEntry_ne (l : List (String × Entry)) (ip ip2 : String)
    (h : ip2 ≠ ip) : getEntry (delEntry l ip) ip2 = getEntry l ip2 := by
  induction l with
  | nil => simp [delEntry]
  | cons p rest ih =>
      by_cases hp : p.1 = ip
      · subst hp
        simp [delEntry, getEntry, Ne.symm h]
      · by_cases hp2 : p.1 = ip2 <;> simp [delEntry, getEntry, hp, hp2, h, ih]

theorem getEntry_eq_none_of_not_mem (l : List (String × Entry)) (ip : String)
    (h : ip ∉ keys l) : getEntry l ip = none := by
  induction l with
  | nil => simp [getEntry]
  | cons p rest ih =>
      simp only [keys, List.map_cons, List.mem_cons] at h
      push_neg at h
      simp [getEntry, Ne.symm h.1, ih (by simpa [keys] using h.2)]

theorem mem_keys_of_getEntry (l : List (String × Entry)) (ip : String) (e : Entry)
    (h : getEntry l ip = some e) : ip ∈ keys l := by
  induction l with
  | nil => simp [getEntry] at h
  | cons p rest ih =>
      by_cases hp : p.1 = ip
      · simp [keys, hp]
      · simp only [getEntry, hp, if_false] at h
        simp [keys, ih h]
        right
        simpa [keys] using ih h

theorem getEntry_delEntry_self (l : List (String × Entry)) (ip : String)
    (hnd : (keys l).Nodup) : getEntry (delEntry l ip) ip = none := by
  induction l with
  | nil => simp [delEntry, getEntry]
  | cons p rest ih =>
      simp only [keys, List.map_cons, List.nodup_cons] at hnd
      by_cases hp : p.1 = ip
      · subst hp
        simp only [delEntry, if_pos rfl]
        exact getEntry_eq_none_of_not_mem rest p.1 (by simpa [keys] using hnd.1)
      · simp [delEntry, getEntry, hp]
        exact ih (by simpa [keys] using hnd.2)

theorem delEntry_sublist (l : List (String × Entry)) (ip : String) :
    (delEntry l ip).Sublist l := by
  induction l with
  | nil => simp [delEntry]
  | cons p rest ih =>
      by_cases hp : p.1 = ip
      · simp only [delEntry, if_pos hp]
        exact (List.sublist_cons_self p rest)
      · simp only [delEntry, if_neg hp]
        exact List.Sublist.cons₂ p ih

theorem keys_delEntry_nodup (l : List (String × Entry)) (ip : String)
    (hnd : (keys l).Nodup) : (keys (delEntry l ip)).Nodup :=
  hnd.sublist ((delEntry_sublist l ip).map Prod.fst)

theorem keys_setEntry (l : List (String × Entry)) (ip : String) (e : Entry) :
    keys (setEntry l ip e) = if ip ∈ keys l then keys l else keys l ++ [ip] := by
  induction l with
  | nil => simp [setEntry, keys]
  | cons p rest ih =>
      by_cases hp : p.1 = ip
      · subst hp
        simp [setEntry, keys]
      · simp only [setEntry, if_neg hp, keys, List.map_cons, List.mem_cons]
        rw [show List.map Prod.fst (setEntry rest ip e) = keys (setEntry rest ip e) from rfl, ih]
        by_cases hm : ip ∈ List.map Prod.fst rest
        · simp [keys, hm, Ne.symm hp]
        · simp [keys, hm, Ne.symm hp]

theorem keys_setEntry_nodup (l : List (String × Entry)) (ip : String) (e : Entry)
    (hnd : (keys l).Nodup) : (keys (setEntry l ip e)).Nodup := by
  rw [keys_setEntry]
  by_cases hm : ip ∈ keys l
  · simpa [hm] using hnd
  · simp only [if_neg hm]
    simpa [List.nodup_append, hm] using hnd

theorem setEntry_eq_of_getEntry (l : List (String × Entry)) (ip : String) (e : Entry)
    (h : getEntry l ip = some e) : setEntry l ip e = l := by
  induction l with
  | nil => simp [getEntry] at h
  | cons p rest ih =>
      by_cases hp : p.1 = ip
      · simp only [getEntry, if_pos hp, Option.some.injEq] at h
        simp only [setEntry, if_pos hp]
        rw [← hp, ← h]
      · simp only [getEntry, if_neg hp] at h
        simp [setEntry, hp, ih h]

theorem removeClient_not_mem (c : List Sub) (ws : Sub) : ws ∉ removeClient c ws := by
  induction c with
  | nil => simp [removeClient]
  | cons x rest ih =>
      by_cases hx : x = ws
      · simpa [removeClient, hx] using ih
      · simp [removeClient, hx, ih, Ne.symm hx]

theorem removeClient_of_not_mem (c : List Sub) (ws : Sub) (h : ws ∉ c) :
    removeClient c ws = c := by
  induction c with
  | nil => simp [removeClient]
  | cons x rest ih =>
      simp only [List.mem_cons] at h
      push_neg at h
      simp [removeClient, Ne.symm h.1, ih h.2]

theorem addClient_ne_nil (c : List Sub) (ws : Sub) : addClient c ws ≠ [] := by
  unfold addClient
  by_cases h : ws ∈ c
  · simp only [if_pos h]
    intro hc
    subst hc
    simp at h
  · simp [if_neg h]

theorem subscribe_getEntry (h : Hub) (ip : String) (iv : Nat) (ws : Sub) (ip2 : String) :
    getEntry (subscribe h ip iv ws).1.subs ip2 =
      if ip2 = ip then
        some { (ensurePolling h ip iv).2.1 with
               clients := addClient (ensurePolling h ip iv).2.1.clients ws }
      else getEntry h.subs ip2 := by
  by_cases hip : ip2 = ip
  · subst hip
    simp [subscribe, getEntry_setEntry_self]
  · simp only [subscribe]
    rw [getEntry_setEntry_ne _ _ _ _ hip, if_neg hip]
    cases hge : getEntry h.subs ip with
    | none => simp [ensurePolling, hge, getEntry_setEntry_ne _ _ _ _ hip]
    | some ex =>
        by_cases hlt : iv < ex.intervalMs <;>
          simp [ensurePolling, hge, hlt, getEntry_setEntry_ne _ _ _ _ hip]

theorem ensurePolling_keysOk (h : Hub) (ip : String) (iv : Nat) (hk : KeysOk h) :
    KeysOk (ensurePolling h ip iv).1 := by
  cases hge : getEntry h.subs ip with
  | none => simpa [ensurePolling, hge, KeysOk] using keys_setEntry_nodup _ ip _ hk
  | some ex =>
      by_cases hlt : iv < ex.intervalMs
      · simpa [ensurePolling, hge, hlt, KeysOk] using keys_setEntry_nodup _ ip _ hk
      · simpa [ensurePolling, hge, hlt] using hk

theorem subscribe_keysOk (h : Hub) (ip : String) (iv : Nat) (ws : Sub) (hk : KeysOk h) :
    KeysOk (subscribe h ip iv ws).1 := by
  have h1 := ensurePolling_keysOk h ip iv hk
  simpa [subscribe, KeysOk] using keys_setEntry_nodup _ ip _ h1

theorem cleanup_keysOk (h : Hub) (ip : String) (hk : KeysOk h) :
    KeysOk (cleanupSubscription h ip).1 := by
  cases hge : getEntry h.subs ip with
  | none => simpa [cleanupSubscription, hge] using hk
  | some e =>
      by_cases hc : e.clients = []
      · simpa [cleanupSubscription, hge, hc, KeysOk] using keys_delEntry_nodup _ ip hk
      · simpa [cleanupSubscription, hge, hc] using hk

theorem unsubscribe_keysOk (h : Hub) (ip : String) (ws : Sub) (hk : KeysOk h) :
    KeysOk (unsubscribe h ip ws).1 := by
  cases hge : getEntry h.subs ip with
  | none => simpa [unsubscribe, hge] using hk
  | some e =>
      have h1 : KeysOk
          { h with subs := setEntry h.subs ip { e with clients := removeClient e.clients ws } } :=
        keys_setEntry_nodup _ _ _ hk
      simpa [unsubscribe, hge] using cleanup_keysOk _ ip h1

theorem unsubscribe_getEntry (h : Hub) (ip : String) (ws : Sub) (ip2 : String)
    (hk : KeysOk h) :
    getEntry (unsubscribe h ip ws).1.subs ip2 =
      if ip2 = ip then
        (getEntry h.subs ip).bind (fun e =>
          if removeClient e.clients ws = [] then none
          else some { e with clients := removeClient e.clients ws })
      else getEntry h.subs ip2 := by
  cases hge : getEntry h.subs ip with
  | none =>
      by_cases hip : ip2 = ip
      · subst hip; simp [unsubscribe, hge]
      · simp [unsubscribe, hge, hip]
  | some e =>
      have hk1 : (keys (setEntry h.subs ip { e with clients := removeClient e.clients ws })).Nodup :=
        keys_setEntry_nodup _ _ _ hk
      by_cases hrc : removeClient e.clients ws = []
      · have hstep : (unsubscribe h ip ws).1.subs
            = delEntry (setEntry h.subs ip { e with clients := removeClient e.clients ws }) ip := by
          simp [unsubscribe, hge, cleanupSubscription, getEntry_setEntry_self, hrc]
        rw [hstep]
        by_cases hip : ip2 = ip
        · subst hip
          rw [getEntry_delEntry_self _ _ hk1, if_pos rfl]
          simp [hge, hrc]
        · rw [getEntry_delEntry_ne _ _ _ hip, getEntry_setEntry_ne _ _ _ _ hip, if_neg hip]
      · have hstep : (unsubscribe h ip ws).1.subs
            = setEntry h.subs ip { e with clients := removeClient e.clients ws } := by
          simp [unsubscribe, hge, cleanupSubscription, getEntry_setEntry_self, hrc]
        rw [hstep]
        by_cases hip : ip2 = ip
        · subst hip
          rw [getEntry_setEntry_self, if_pos rfl]
          simp [hge, hrc]
        · rw [getEntry_setEntry_ne _ _ _ _ hip, if_neg hip]

theorem unsubscribe_actions (h : Hub) (ip : String) (ws : Sub) (e : Entry)
    (he : getEntry h.subs ip = some e) :
    (unsubscribe h ip ws).2 =
      if removeClient e.clients ws = [] then [HubAction.clearTimer e.timer] else [] := by
  by_cases hrc : removeClient e.clients ws = [] <;>
    simp [unsubscribe, he, cleanupSubscription, getEntry_setEntry_self, hrc]

theorem unsubscribe_noentry (h : Hub) (ip : String) (ws : Sub)
    (he : getEntry h.subs ip = none) : unsubscribe h ip ws = (h, []) := by
  simp [unsubscribe, he]

theorem unsubscribe_noclient (h : Hub) (ip : String) (ws : Sub) (e : Entry)
    (hinv : Inv h) (he : getEntry h.subs ip = some e) (hmem : ws ∉ e.clients) :
    unsubscribe h ip ws = (h, []) := by
  have hrc : removeClient e.clients ws = e.clients := removeClient_of_not_mem _ _ hmem
  have hne : e.clients ≠ [] := hinv.2 ip e he
  have hset : setEntry h.subs ip { e with clients := e.clients } = h.subs := by
    have he2 : ({ e with clients := e.clients } : Entry) = e := rfl
    rw [he2]
    exact setEntry_eq_of_getEntry _ _ _ he
  simp [unsubscribe, he, hrc, hset, cleanupSubscription, hne]

theorem unsubscribe_inv (h : Hub) (ip : String) (ws : Sub) (hinv : Inv h) :
    Inv (unsubscribe h ip ws).1 := by
  obtain ⟨hk, hne⟩ := hinv
  refine ⟨unsubscribe_keysOk h ip ws hk, ?_⟩
  intro ip2 e2 hget
  rw [unsubscribe_getEntry h ip ws ip2 hk] at hget
  by_cases hip : ip2 = ip
  · rw [if_pos hip] at hget
    cases hge : getEntry h.subs ip with
    | none => simp [hge] at hget
    | some e =>
        rw [hge] at hget
        by_cases hrc : removeClient e.clients ws = []
        · simp [hrc] at hget
        · simp only [Option.some_bind, if_neg hrc, Option.some.injEq] at hget
          rw [← hget]
          exact hrc
  · rw [if_neg hip] at hget
    exact hne ip2 e2 hget

theorem subscribe_inv (h : Hub) (ip : String) (iv : Nat) (ws : Sub) (hinv : Inv h) :
    Inv (subscribe h ip iv ws).1 := by
  obtain ⟨hk, hne⟩ := hinv
  refine ⟨subscribe_keysOk h ip iv ws hk, ?_⟩
  intro ip2 e2 hget
  rw [subscribe_getEntry h ip iv ws ip2] at hget
  by_cases hip : ip2 = ip
  · rw [if_pos hip, Option.some.injEq] at hget
    rw [← hget]
    exact addClient_ne_nil _ _
  · rw [if_neg hip] at hget
    exact hne ip2 e2 hget

theorem disconnectGo_inv (ws : Sub) (todo : List String) (h : Hub) (hinv : Inv h) :
    Inv (disconnectGo ws todo h).1 := by
  induction todo generalizing h with
  | nil => simpa [disconnectGo] using hinv
  | cons ip rest ih =>
      simpa [disconnectGo] using ih (unsubscribe h ip ws).1 (unsubscribe_inv h ip ws hinv)

theorem disconnectGo_getEntry (ws : Sub) (todo : List String) (h : Hub)
    (hk : KeysOk h) (hnd : todo.Nodup) (ip : String) :
    getEntry (disconnectGo ws todo h).1.subs ip =
      if ip ∈ todo then
        (getEntry h.subs ip).bind (fun e =>
          if removeClient e.clients ws = [] then none
          else some { e with clients := removeClient e.clients ws })
      else getEntry h.subs ip := by
  induction todo generalizing h with
  | nil => simp [disconnectGo]
  | cons ip0 rest ih =>
      simp only [List.nodup_cons] at hnd
      have hk1 := unsubscribe_keysOk h ip0 ws hk
      have hrec := ih (unsubscribe h ip0 ws).1 hk1 hnd.2
      simp only [disconnectGo]
      rw [hrec]
      by_cases hmem : ip ∈ rest
      · have hip0 : ip ≠ ip0 := fun hc => hnd.1 (hc ▸ hmem)
        rw [if_pos hmem, if_pos (List.mem_cons.mpr (Or.inr hmem))]
        rw [unsubscribe_getEntry h ip0 ws ip hk, if_neg hip0]
      · rw [if_neg hmem]
        by_cases hip0 : ip = ip0
        · subst hip0
          rw [if_pos (List.mem_cons.mpr (Or.inl rfl))]
          rw [unsubscribe_getEntry h ip ws ip hk, if_pos rfl]
        · rw [if_neg (by simp [hip0, hmem])]
          rw [unsubscribe_getEntry h ip0 ws ip hk, if_neg hip0]

theorem getEntry_mem (l : List (String × Entry)) (ip : String) (e : Entry)
    (h : getEntry l ip = some e) : (ip, e) ∈ l := by
  induction l with
  | nil => simp [getEntry] at h
  | cons p rest ih =>
      by_cases hp : p.1 = ip
      · simp only [getEntry, if_pos hp, Option.some.injEq] at h
        have hpe : p = (ip, e) := by
          obtain ⟨p1, p2⟩ := p
          simp_all
        rw [← hpe]
        exact List.mem_cons_self p rest
      · simp only [getEntry, if_neg hp] at h
        exact List.mem_cons_of_mem p (ih h)

theorem disconnectGo_clearTimer_mem (ws : Sub) (todo : List String) (h : Hub)
    (hk : KeysOk h) (hnd : todo.Nodup) (ip : String) (e : Entry)
    (hip : ip ∈ todo) (he : getEntry h.subs ip = some e)
    (hempty : removeClient e.clients ws = []) :
    HubAction.clearTimer e.timer ∈ (disconnectGo ws todo h).2 := by
  induction todo generalizing h with
  | nil => simp at hip
  | cons ip0 rest ih =>
      simp only [List.nodup_cons] at hnd
      have hk1 := unsubscribe_keysOk h ip0 ws hk
      simp only [disconnectGo, List.mem_append]
      rcases List.mem_cons.mp hip with hip0 | hmem
      · subst hip0
        left
        rw [unsubscribe_actions h ip ws e he, if_pos hempty]
        simp
      · have hip0 : ip ≠ ip0 := fun hc => hnd.1 (hc ▸ hmem)
        right
        refine ih (unsubscribe h ip0 ws).1 hk1 hnd.2 hmem ?_
        rw [unsubscribe_getEntry h ip0 ws ip hk, if_neg hip0]
        exact he

/-- C5: the polling interval of an entry never increases. A subscribe whose
requested interval is strictly smaller than the entry's current interval
retunes the entry to the requested interval; an equal or larger request
leaves the interval unchanged; unsubscribe and disconnect never change the
interval of a surviving entry. Concretely, requests of 5000 ms then 2000 ms
leave the entry at 2000 ms, and removing the 2000 ms subscriber keeps it at
2000 ms. -/
theorem interval_only_tightens :
    (∀ (h : Hub) (ip : String) (iv : Nat) (ws : Sub) (e : Entry),
      getEntry h.subs ip = some e → iv < e.intervalMs →
      ∃ e2, getEntry (subscribe h ip iv ws).1.subs ip = some e2 ∧ e2.intervalMs = iv) ∧
    (∀ (h : Hub) (ip : String) (iv : Nat) (ws : Sub) (e : Entry),
      getEntry h.subs ip = some e → e.intervalMs ≤ iv →
      ∃ e2, getEntry (subscribe h ip iv ws).1.subs ip = some e2 ∧
        e2.intervalMs = e.intervalMs) ∧
    (∀ (h : Hub) (ip : String) (ws : Sub) (ip2 : String) (e2 : Entry), KeysOk h →
      getEntry (unsubscribe h ip ws).1.subs ip2 = some e2 →
      ∃ e, getEntry h.subs ip2 = some e ∧ e2.intervalMs = e.intervalMs) ∧
    (∀ (h : Hub) (ws : Sub) (ip : String) (e2 : Entry), KeysOk h →
      getEntry (disconnect h ws).1.subs ip = some e2 →
      ∃ e, getEntry h.subs ip = some e ∧ e2.intervalMs = e.intervalMs) ∧
    ((getEntry (subscribe (subscribe { subs := [], nextTimer := 0 }
        "192.168.0.50" 5000 0).1 "192.168.0.50" 2000 1).1.subs
        "192.168.0.50").map Entry.intervalMs = some 2000 ∧
     (getEntry (unsubscribe (subscribe (subscribe { subs := [], nextTimer := 0 }
        "192.168.0.50" 5000 0).1 "192.168.0.50" 2000 1).1 "192.168.0.50" 1).1.subs
        "192.168.0.50").map Entry.intervalMs = some 2000) := by
  refine ⟨?_, ?_, ?_, ?_, ?_, ?_⟩
  · intro h ip iv ws e hge hlt
    refine ⟨{ (ensurePolling h ip iv).2.1 with
              clients := addClient (ensurePolling h ip iv).2.1.clients ws }, ?_, ?_⟩
    · rw [subscribe_getEntry, if_pos rfl]
    · simp [ensurePolling, hge, hlt]
  · intro h ip iv ws e hge hle
    have hnlt : ¬iv < e.intervalMs := Nat.not_lt.mpr hle
    refine ⟨{ (ensurePolling h ip iv).2.1 with
              clients := addClient (ensurePolling h ip iv).2.1.clients ws }, ?_, ?_⟩
    · rw [subscribe_getEntry, if_pos rfl]
    · simp [ensurePolling, hge, hnlt]
  · intro h ip ws ip2 e2 hk hget
    rw [unsubscribe_getEntry h ip ws ip2 hk] at hget
    by_cases hip : ip2 = ip
    · rw [if_pos hip] at hget
      cases hge : getEntry h.subs ip with
      | none => simp [hge] at hget
      | some e =>
          rw [hge] at hget
          by_cases hrc : removeClient e.clients ws = []
          · simp [hrc] at hget
          · simp only [Option.some_bind, if_neg hrc, Option.some.injEq] at hget
            refine ⟨e, ?_, ?_⟩
            · rw [hip]; exact hge
            · rw [← hget]
    · rw [if_neg hip] at hget
      exact ⟨e2, hget, rfl⟩
  · intro h ws ip e2 hk hget
    rw [show disconnect h ws = disconnectGo ws (keys h.subs) h from rfl,
      disconnectGo_getEntry ws (keys h.subs) h hk hk ip] at hget
    by_cases hmem : ip ∈ keys h.subs
    · rw [if_pos hmem] at hget
      cases hge : getEntry h.subs ip with
      | none => simp [hge] at hget
      | some e =>
          rw [hge] at hget
          by_cases hrc : removeClient e.clients ws = []
          · simp [hrc] at hget
          · simp only [Option.some_bind, if_neg hrc, Option.some.injEq] at hget
            refine ⟨e, rfl, ?_⟩
            rw [← hget]
    · rw [if_neg hmem] at hget
      exact ⟨e2, hget, rfl⟩
  · rfl
  · rfl

/-- C5 witness: tightening applied to a concrete hub whose entry polls at
5000 ms, with a 2000 ms request. -/
theorem interval_only_tightens_witness :
    ∃ e2, getEntry (subscribe
        { subs := [("a", { clients := [0], intervalMs := 5000, timer := 0 })], nextTimer := 1 }
        "a" 2000 1).1.subs "a" = some e2 ∧ e2.intervalMs = 2000 :=
  interval_only_tightens.1
    { subs := [("a", { clients := [0], intervalMs := 5000, timer := 0 })], nextTimer := 1 }
    "a" 2000 1 { clients := [0], intervalMs := 5000, timer := 0 } rfl (by decide)

/-- C6: the registry invariant — an entry exists only while its subscriber
set is non-empty (with unique Map keys) — is preserved by subscribe,
unsubscribe and disconnect; unsubscribing the last subscriber of an entry
deletes the entry and clears exactly its timer; and unsubscribe is
idempotent: on an address with no entry, or for a handle that is not in the
entry's set, the hub state is unchanged and no timer action is performed. -/
theorem hub_entry_iff_nonempty :
    (∀ (h : Hub) (ip : String) (iv : Nat) (ws : Sub), Inv h →
      Inv (subscribe h ip iv ws).1) ∧
    (∀ (h : Hub) (ip : String) (ws : Sub), Inv h → Inv (unsubscribe h ip ws).1) ∧
    (∀ (h : Hub) (ws : Sub), Inv h → Inv (disconnect h ws).1) ∧
    (∀ (h : Hub) (ip : String) (ws : Sub) (e : Entry), KeysOk h →
      getEntry h.subs ip = some e → e.clients = [ws] →
      getEntry (unsubscribe h ip ws).1.subs ip = none ∧
      (unsubscribe h ip ws).2 = [HubAction.clearTimer e.timer]) ∧
    (∀ (h : Hub) (ip : String) (ws : Sub), getEntry h.subs ip = none →
      unsubscribe h ip ws = (h, [])) ∧
    (∀ (h : Hub) (ip : String) (ws : Sub) (e : Entry), Inv h →
      getEntry h.subs ip = some e → ws ∉ e.clients →
      unsubscribe h ip ws = (h, [])) := by
  refine ⟨subscribe_inv, unsubscribe_inv, ?_, ?_, unsubscribe_noentry, ?_⟩
  · intro h ws hinv
    exact disconnectGo_inv ws (keys h.subs) h hinv
  · intro h ip ws e hk hge hcl
    have hrc : removeClient e.clients ws = [] := by simp [hcl, removeClient]
    constructor
    · rw [unsubscribe_getEntry h ip ws ip hk, if_pos rfl, hge]
      simp [hrc]
    · rw [unsubscribe_actions h ip ws e hge, if_pos hrc]
  · intro h ip ws e hinv hge hmem
    exact unsubscribe_noclient h ip ws e hinv hge hmem

/-- C6 witness: unsubscribing the sole subscriber of a concrete one-entry hub
removes the entry and clears its timer. -/
theorem hub_entry_iff_nonempty_witness :
    getEntry (unsubscribe
        { subs := [("a", { clients := [7], intervalMs := 1000, timer := 0 })], nextTimer := 1 }
        "a" 7).1.subs "a" = none ∧
    (unsubscribe
        { subs := [("a", { clients := [7], intervalMs := 1000, timer := 0 })], nextTimer := 1 }
        "a" 7).2 = [HubAction.clearTimer 0] :=
  hub_entry_iff_nonempty.2.2.2.1
    { subs := [("a", { clients := [7], intervalMs := 1000, timer := 0 })], nextTimer := 1 }
    "a" 7 { clients := [7], intervalMs := 1000, timer := 0 }
    (by unfold KeysOk; decide) rfl rfl

/-- C8: disconnecting a handle removes it from the subscriber set of every
entry it is registered in: after disconnect no surviving entry contains the
handle; every entry whose set becomes empty is removed from the registry and
its timer is cleared; and every entry that still has other subscribers is
kept, with exactly the handle removed from its set. -/
theorem disconnect_removes_everywhere (h : Hub) (ws : Sub) (hinv : Inv h) :
    (∀ (ip : String) (e2 : Entry), getEntry (disconnect h ws).1.subs ip = some e2 →
      ws ∉ e2.clients) ∧
    (∀ (ip : String) (e : Entry), getEntry h.subs ip = some e →
      removeClient e.clients ws = [] →
      getEntry (disconnect h ws).1.subs ip = none ∧
      HubAction.clearTimer e.timer ∈ (disconnect h ws).2) ∧
    (∀ (ip : String) (e : Entry), getEntry h.subs ip = some e →
      removeClient e.clients ws ≠ [] →
      getEntry (disconnect h ws).1.subs ip =
        some { e with clients := removeClient e.clients ws }) := by
  obtain ⟨hk, hne⟩ := hinv
  have hchar := disconnectGo_getEntry ws (keys h.subs) h hk hk
  refine ⟨?_, ?_, ?_⟩
  · intro ip e2 hget
    rw [show disconnect h ws = disconnectGo ws (keys h.subs) h from rfl, hchar ip] at hget
    by_cases hmem : ip ∈ keys h.subs
    · rw [if_pos hmem] at hget
      cases hge : getEntry h.subs ip with
      | none => simp [hge] at hget
      | some e =>
          rw [hge] at hget
          by_cases hrc : removeClient e.clients ws = []
          · simp [hrc] at hget
          · simp only [Option.some_bind, if_neg hrc, Option.some.injEq] at hget
            rw [← hget]
            exact removeClient_not_mem e.clients ws
    · rw [if_neg hmem] at hget
      rw [getEntry_eq_none_of_not_mem h.subs ip hmem] at hget
      simp at hget
  · intro ip e hge hrc
    have hmem := mem_keys_of_getEntry h.subs ip e hge
    constructor
    · rw [show disconnect h ws = disconnectGo ws (keys h.subs) h from rfl, hchar ip,
        if_pos hmem, hge]
      simp [hrc]
    · exact disconnectGo_clearTimer_mem ws (keys h.subs) h hk hk ip e hmem hge hrc
  · intro ip e hge hrc
    have hmem := mem_keys_of_getEntry h.subs ip e hge
    rw [show disconnect h ws = disconnectGo ws (keys h.subs) h from rfl, hchar ip,
      if_pos hmem, hge]
    simp [hrc]

/-- A concrete two-entry hub: handle 5 is the sole subscriber of printer a
and shares printer b with handle 6. -/
def hubW : Hub :=
  { subs := [("a", { clients := [5], intervalMs := 1000, timer := 0 }),
             ("b", { clients := [5, 6], intervalMs := 1500, timer := 1 })],
    nextTimer := 2 }

/-- C8 witness: disconnecting handle 5 from hubW removes entry a (clearing
timer 0) and keeps entry b with only handle 6. -/
theorem disconnect_removes_everywhere_witness :
    (getEntry (disconnect hubW 5).1.subs "a" = none ∧
      HubAction.clearTimer 0 ∈ (disconnect hubW 5).2) ∧
    getEntry (disconnect hubW 5).1.subs "b" =
      some { clients := [6], intervalMs := 1500, timer := 1 } := by
  have hinv : Inv hubW := by
    refine ⟨by unfold KeysOk; decide, ?_⟩
    intro ip e hget
    have hm := getEntry_mem _ _ _ hget
    simp only [hubW, List.mem_cons, List.not_mem_nil, or_false, Prod.mk.injEq] at hm
    rcases hm with ⟨_, he⟩ | ⟨_, he⟩ <;> subst he <;> simp
  have h2 := disconnect_removes_everywhere hubW 5 hinv
  refine ⟨h2.2.1 "a" { clients := [5], intervalMs := 1000, timer := 0 } rfl (by decide), ?_⟩
  exact h2.2.2 "b" { clients := [5, 6], intervalMs := 1500, timer := 1 } rfl (by decide)

/-! The polling tick and in-flight assemblies, lines 212-227 and 233-248.

The timer callback registered by setInterval is
  async () => { const data = await fetchSnapshot(ip); for ... }
JavaScript setInterval fires on schedule regardless of whether a previous
asynchronous callback is still awaiting, and the callback body begins a
snapshot assembly unconditionally: the entry record (line 203: clients,
timer, intervalMs) holds no in-flight flag, and the callback contains no
test that could skip a tick. So every timer fire starts one assembly and
every assembly completion ends one; the events of one device's polling
loop are modelled by TickEvent and the number of outstanding assemblies by
a fold over the event list. -/

/-- One event of a device's polling loop: a timer fire (the callback starts
an assembly) or the completion of an assembly. -/
inductive TickEvent where
  | fire
  | complete
  deriving Repr, DecidableEq

/-- Effect of one event on the number of in-flight assemblies: a fire starts
an assembly unconditionally (the callback of lines 233-248 has no guard);
a completion ends one. -/
def pollStep (inFlight : Nat) : TickEvent → Nat
  | TickEvent.fire => inFlight + 1
  | TickEvent.complete => inFlight - 1

/-- Number of in-flight assemblies after a list of polling-loop events. -/
def inFlightAfter (evs : List TickEvent) : Nat := evs.foldl pollStep 0

/-- C1 counterexample: two timer fires with the first assembly still
outstanding leave two concurrent assemblies for the same device — the second
tick is not skipped, contradicting the claimed single-flight bound of one. -/
theorem pollTick_no_single_flight_guard :
    inFlightAfter [TickEvent.fire, TickEvent.fire] = 2 ∧
    ¬inFlightAfter [TickEvent.fire, TickEvent.fire] ≤ 1 := by
  decide

theorem foldl_pollStep_fire (k n : Nat) :
    List.foldl pollStep n (List.replicate k TickEvent.fire) = n + k := by
  induction k generalizing n with
  | zero => simp [List.replicate]
  | succ m ih =>
      simp only [List.replicate, List.foldl_cons, pollStep, ih]
      omega

/-- C1 amended: the code has no single-flight guard: every timer fire starts
a new assembly regardless of how many are outstanding, so k consecutive
fires with no completion leave k concurrent assemblies for the same device
(unbounded overlap when assemblies outlast the interval). -/
theorem pollTick_always_starts_assembly :
    (∀ n : Nat, pollStep n TickEvent.fire = n + 1) ∧
    (∀ k : Nat, inFlightAfter (List.replicate k TickEvent.fire) = k) := by
  constructor
  · intro n
    rfl
  · intro k
    have h := foldl_pollStep_fire k 0
    simpa [inFlightAfter] using h

/-! The tick delivery loop, lines 215-219 and 236-240: for each client in the
entry's Set, the snapshot (or the error message) is sent only when
ws.readyState === ws.OPEN; the loop neither removes any client from the Set
nor stops on a non-open client. -/

/-- A message pushed to one observer socket. -/
inductive WsMsg where
  | snapshotMsg (ip : String) (data : Snapshot)
  | errorMsg (ip : String) (err : String)
  deriving Repr, DecidableEq

/-- The for-of loop over entry.clients: send the message to each client whose
readyState is OPEN (isOpen), skip the others. -/
def deliverLoop (clients : List Sub) (isOpen : Sub → Bool) (m : WsMsg) :
    List (Sub × WsMsg) :=
  match clients with
  | [] => []
  | ws :: rest =>
      (if isOpen ws then [(ws, m)] else []) ++ deliverLoop rest isOpen m

/-- One poll tick of the callback of lines 233-248, after the assembly
settled: on success broadcast the snapshot, on failure broadcast the error
message; the entry (in particular its client Set) is returned as the loop
leaves it — unmodified. -/
def pollTickEntry (e : Entry) (ip : String) (result : Except String Snapshot)
    (isOpen : Sub → Bool) : Entry × List (Sub × WsMsg) :=
  match result with
  | .ok data => (e, deliverLoop e.clients isOpen (WsMsg.snapshotMsg ip data))
  | .error m => (e, deliverLoop e.clients isOpen (WsMsg.errorMsg ip m))

/-- A concrete snapshot for counterexamples. -/
def sampleSnapshot : Snapshot :=
  { info := [], headLocation := [], temperatures := initTemperatures,
    progress := initProgress, status := [], errors := [], timestamp := "t" }

/-- C7 counterexample: with clients 0, 1, 2 of which client 1 is not open,
the tick delivers to 0 and 2 and skips 1, but client 1 is not removed from
the entry's subscriber set — the set after the tick still contains it,
contradicting the claimed removal on send failure. -/
theorem tick_keeps_closed_subscriber :
    (pollTickEntry { clients := [0, 1, 2], intervalMs := 2000, timer := 0 }
        "p" (.ok sampleSnapshot) (fun ws => ws != 1)).2 =
      [(0, WsMsg.snapshotMsg "p" sampleSnapshot), (2, WsMsg.snapshotMsg "p" sampleSnapshot)] ∧
    (pollTickEntry { clients := [0, 1, 2], intervalMs := 2000, timer := 0 }
        "p" (.ok sampleSnapshot) (fun ws => ws != 1)).1.clients = [0, 1, 2] ∧
    1 ∈ (pollTickEntry { clients := [0, 1, 2], intervalMs := 2000, timer := 0 }
        "p" (.ok sampleSnapshot) (fun ws => ws != 1)).1.clients := by
  refine ⟨?_, ?_, ?_⟩ <;> decide

theorem deliverLoop_filter (clients : List Sub) (isOpen : Sub → Bool) (m : WsMsg) :
    deliverLoop clients isOpen m = (clients.filter isOpen).map (fun ws => (ws, m)) := by
  induction clients with
  | nil => simp [deliverLoop]
  | cons ws rest ih =>
      by_cases hw : isOpen ws <;> simp [deliverLoop, List.filter_cons, hw, ih]

/-- C7 amended: on each tick the snapshot is delivered to exactly the
subscribers whose transport is open at fire time, in set order; subscribers
that are not open are skipped — no send is attempted on them, so the skip
cannot fail the tick or stop delivery to the rest — but they are not removed
from the entry's subscriber set (removal happens only in the unsubscribe and
close handlers), and the same holds for the error broadcast. -/
theorem tick_delivery_skips_closed (e : Entry) (ip : String) (data : Snapshot)
    (m : String) (isOpen : Sub → Bool) :
    (pollTickEntry e ip (.ok data) isOpen).1 = e ∧
    (pollTickEntry e ip (.ok data) isOpen).2 =
      (e.clients.filter isOpen).map (fun ws => (ws, WsMsg.snapshotMsg ip data)) ∧
    (pollTickEntry e ip (.error m) isOpen).1 = e ∧
    (pollTickEntry e ip (.error m) isOpen).2 =
      (e.clients.filter isOpen).map (fun ws => (ws, WsMsg.errorMsg ip m)) := by
  refine ⟨rfl, ?_, rfl, ?_⟩ <;> simp [pollTickEntry, deliverLoop_filter]

/-! The transaction primitive sendAndReceive, lines 59-83. One call creates
one socket, connects to port 8899 and writes the command; it registers three
handlers: on data — client.destroy() then resolve with the first chunk; on
timeout (5000 ms) — client.destroy() then reject with Connection timeout; on
error — reject with the error (the code does not call destroy here, but a
Node net.Socket that emits an error event is closed by the runtime
immediately afterwards). A promise settles only once: the first settling
event determines the outcome; later events still run their handler side
effects but cannot re-settle. -/

/-- A socket event in the order the runtime delivers them. -/
inductive SockEvent where
  | dataEv (chunk : String)
  | timeoutEv
  | errorEv (msg : String)
  deriving Repr, DecidableEq

/-- Socket state: whether the connection is closed, and the settled outcome
of the promise, if any. -/
structure SockState where
  closed : Bool
  settled : Option (Except String String)
  deriving Repr

/-- The handlers of lines 68-81. Data: destroy (closes) and resolve the first
chunk. Timeout: destroy (closes) and reject Connection timeout. Error:
reject; the socket is closed by the runtime right after the error event.
An already settled promise ignores further resolve/reject calls. -/
def handleEvent (s : SockState) (ev : SockEvent) : SockState :=
  match ev with
  | .dataEv chunk =>
      { closed := true,
        settled := match s.settled with
          | some r => some r
          | none => some (.ok chunk) }
  | .timeoutEv =>
      { closed := true,
        settled := match s.settled with
          | some r => some r
          | none => some (.error "Connection timeout") }
  | .errorEv msg =>
      { closed := true,
        settled := match s.settled with
          | some r => some r
          | none => some (.error msg) }

/-- One call to sendAndReceive: one socket is opened (first component 1) and
the registered handlers process the events the connection produces. -/
def sendAndReceive (evs : List SockEvent) : Nat × SockState :=
  (1, evs.foldl handleEvent { closed := false, settled := none })

/-- Outcome determined by the first event: first data chunk resolves, timeout
rejects with Connection timeout, a socket error rejects with its message. -/
def settleOf : SockEvent → Except String String
  | .dataEv chunk => .ok chunk
  | .timeoutEv => .error "Connection timeout"
  | .errorEv msg => .error msg

theorem handleEvent_closed (s : SockState) (ev : SockEvent) :
    (handleEvent s ev).closed = true := by
  cases ev <;> rfl

theorem handleEvent_settled_mono (s : SockState) (ev : SockEvent) (r : Except String String)
    (h : s.settled = some r) : (handleEvent s ev).settled = some r := by
  cases ev <;> simp [handleEvent, h]

theorem foldl_handleEvent_closed (evs : List SockEvent) (s : SockState)
    (h : s.closed = true) : (evs.foldl handleEvent s).closed = true := by
  induction evs generalizing s with
  | nil => simpa using h
  | cons ev rest ih => exact ih (handleEvent s ev) (handleEvent_closed s ev)

theorem foldl_handleEvent_settled (evs : List SockEvent) (s : SockState)
    (r : Except String String) (h : s.settled = some r) :
    (evs.foldl handleEvent s).settled = some r := by
  induction evs generalizing s with
  | nil => simpa using h
  | cons ev rest ih => exact ih (handleEvent s ev) (handleEvent_settled_mono s ev r h)

/-- C9: every call opens exactly one outbound connection; whatever events the
connection produces, after the first one the promise is settled with the
outcome of that first event — first data chunk resolves with it, timeout
rejects with Connection timeout, socket error rejects with its message (the
call never throws uncaught: every path settles the promise) — and the socket
is closed from the first event on, so it is closed by the time the call
completes in all three outcomes. -/
theorem sendAndReceive_lifecycle (ev : SockEvent) (rest : List SockEvent) :
    (sendAndReceive (ev :: rest)).1 = 1 ∧
    (sendAndReceive (ev :: rest)).2.closed = true ∧
    (sendAndReceive (ev :: rest)).2.settled = some (settleOf ev) := by
  refine ⟨rfl, ?_, ?_⟩
  · exact foldl_handleEvent_closed rest _ (handleEvent_closed _ ev)
  · refine foldl_handleEvent_settled rest _ _ ?_
    cases ev <;> rfl

end FlashforgeApi
